import Mathlib

/-!
Verification of the Modular RAG retrieval pipeline specification.

The repository sources under version control contain the frontend
(React components and services) and the design documents; the backend
pipeline (chunker, embedding gateway, vector index, retriever,
reranker, generator) is described by the specification and the
implementation guide.  Definitions for the backend are therefore
modelled from the specification, while the frontend behaviour
(`stripMarkdown`, `ragService.query`, `handleSendMessage`) is embedded
directly from the JavaScript sources.
-/

namespace ModularRAG

/-- Modelled from the spec: `ParentChunk` record of the data model
(section 3); the backend chunker source is not in the repository
snapshot. -/
structure ParentChunk where
  parent_id : String
  document_id : String
  owner_id : String
  text : String
  order_index : Nat
deriving DecidableEq, Repr

/-- Modelled from the spec: `IndexEntry` record `{child_id, embedding,
metadata:{owner_id, document_id, parent_id}}` (section 3); the backend
vector-store source is not in the repository snapshot. -/
structure IndexEntry where
  child_id : String
  embedding : List Int
  owner_id : String
  document_id : String
  parent_id : String
deriving DecidableEq, Repr

/-- Modelled from the spec: the Vector Index owns the index entries and
the parent-chunk store (sections 3 and 4.3). -/
structure VectorIndex where
  entries : List IndexEntry
  parents : List ParentChunk
deriving DecidableEq, Repr

/-- Modelled from the spec: `RetrievalResult` element
`{parent_chunk, score, source_child_id}` (section 3). -/
structure RetrievalResult where
  parent_chunk : ParentChunk
  score : Int
  source_child_id : String
deriving DecidableEq, Repr

/-- Modelled from the spec: inner-product similarity, the fixed
per-deployment scoring of section 4.3. -/
def similarity (u v : List Int) : Int :=
  (List.zip u v).foldl (fun s p => s + p.1 * p.2) 0

/-- Modelled from the spec: the hard search filter of section 4.3,
restricting to `owner_id` and to `document_ids` when provided. -/
def matchesFilter (owner : String) (docFilter : Option (List String)) (e : IndexEntry) : Bool :=
  e.owner_id == owner &&
    (match docFilter with
     | none => true
     | some ds => ds.contains e.document_id)

/-- Ordering used to rank search hits: descending similarity score. -/
def hitLE (a b : String × Int) : Prop := b.2 ≤ a.2

instance : DecidableRel hitLE := fun a b => inferInstanceAs (Decidable (b.2 ≤ a.2))

instance : IsTotal (String × Int) hitLE := ⟨fun a b => le_total b.2 a.2⟩

instance : IsTrans (String × Int) hitLE := ⟨fun _ _ _ h1 h2 => le_trans h2 h1⟩

/-- Modelled from the spec: `search(query_vector, top_k, filter)` of
section 4.3, returning at most `top_k` `(child_id, score)` pairs for
entries matching the filter, ranked by descending similarity. -/
def search (idx : VectorIndex) (qv : List Int) (owner : String)
    (docFilter : Option (List String)) (top_k : Nat) : List (String × Int) :=
  (List.insertionSort hitLE ((idx.entries.filter (matchesFilter owner docFilter)).map
    (fun e => (e.child_id, similarity qv e.embedding)))).take top_k

/-- Modelled from the spec: metadata lookup of a child entry by its
`child_id` (section 4.3). -/
def lookupEntry (idx : VectorIndex) (cid : String) : Option IndexEntry :=
  idx.entries.find? (fun e => e.child_id == cid)

/-- Modelled from the spec: `get_parent(parent_id)` of section 4.3. -/
def get_parent (idx : VectorIndex) (pid : String) : Option ParentChunk :=
  idx.parents.find? (fun p => p.parent_id == pid)

/-- Modelled from the spec: `upsert(entries)` of section 4.3; `child_id`
is the upsert key, so entries carrying a key present in the batch are
replaced. -/
def upsert (idx : VectorIndex) (es : List IndexEntry) : VectorIndex :=
  { idx with
    entries :=
      idx.entries.filter (fun e => !(es.any (fun n => n.child_id == e.child_id))) ++ es }

/-- Parent identifier of a retrieval result. -/
def pid (r : RetrievalResult) : String := r.parent_chunk.parent_id

/-- Modelled from the spec: resolution of one search hit to its parent
chunk via the metadata store and `get_parent` (section 4.5). -/
def resolveHit (idx : VectorIndex) (hit : String × Int) : Option RetrievalResult :=
  match lookupEntry idx hit.1 with
  | none => none
  | some e =>
    match get_parent idx e.parent_id with
    | none => none
    | some p => some ⟨p, hit.2, hit.1⟩

/-- Modelled from the spec: the parent-resolved candidate list the
retriever builds from the index search (section 4.5). -/
def candidates (idx : VectorIndex) (qv : List Int) (owner : String)
    (docFilter : Option (List String)) (top_k : Nat) : List RetrievalResult :=
  (search idx qv owner docFilter top_k).filterMap (resolveHit idx)

/-- First occurrence of each element, in order of first appearance.
The fuel argument is the input length; filtering never lengthens the
list, so the fuel suffices. -/
def firstOccurGo : Nat → List String → List String
  | 0, _ => []
  | _ + 1, [] => []
  | fuel + 1, x :: xs => x :: firstOccurGo fuel (xs.filter (fun y => y ≠ x))

/-- First occurrence of each element, in order of first appearance. -/
def firstOccur (l : List String) : List String := firstOccurGo l.length l

/-- Best-scoring element of a candidate list (earlier elements win
ties). -/
def pickBest : List RetrievalResult → Option RetrievalResult
  | [] => none
  | r :: rs =>
    match pickBest rs with
    | none => some r
    | some b => some (if r.score < b.score then b else r)

/-- Modelled from the spec: deduplication by `parent_id` keeping the
maximum score (section 4.5). -/
def dedupByParent (l : List RetrievalResult) : List RetrievalResult :=
  (firstOccur (l.map pid)).filterMap
    (fun p => pickBest (l.filter (fun r => pid r == p)))

/-- Ordering of final retrieval results: descending score, ties broken
by ascending parent `order_index` (section 4.5). -/
def rrLE (a b : RetrievalResult) : Prop :=
  b.score < a.score ∨ (a.score = b.score ∧ a.parent_chunk.order_index ≤ b.parent_chunk.order_index)

instance : DecidableRel rrLE := fun a b =>
  inferInstanceAs (Decidable (b.score < a.score ∨
    (a.score = b.score ∧ a.parent_chunk.order_index ≤ b.parent_chunk.order_index)))

instance : IsTotal RetrievalResult rrLE :=
  ⟨fun a b => by
    rcases lt_trichotomy a.score b.score with h | h | h
    · exact Or.inr (Or.inl h)
    · rcases le_total a.parent_chunk.order_index b.parent_chunk.order_index with h2 | h2
      · exact Or.inl (Or.inr ⟨h, h2⟩)
      · exact Or.inr (Or.inr ⟨h.symm, h2⟩)
    · exact Or.inl (Or.inl h)⟩

instance : IsTrans RetrievalResult rrLE :=
  ⟨fun a b c hab hbc => by
    rcases hab with h1 | ⟨h1, h1o⟩
    · rcases hbc with h2 | ⟨h2, _⟩
      · exact Or.inl (lt_trans h2 h1)
      · exact Or.inl (h2 ▸ h1)
    · rcases hbc with h2 | ⟨h2, h2o⟩
      · exact Or.inl (h1 ▸ h2)
      · exact Or.inr ⟨h1.trans h2, le_trans h1o h2o⟩⟩

/-- Modelled from the spec: `retrieve(enhanced_query, owner_id,
document_filter?, top_k)` of section 4.5: embed the enhanced query,
search the index restricted to the owner (and document filter), resolve
children to parents, deduplicate by parent keeping the maximum score,
and order by descending score with ties broken by ascending parent
`order_index`. -/
def retrieve (idx : VectorIndex) (embedQ : String → List Int) (enhanced_query : String)
    (owner : String) (docFilter : Option (List String)) (top_k : Nat) : List RetrievalResult :=
  List.insertionSort rrLE
    (dedupByParent (candidates idx (embedQ enhanced_query) owner docFilter top_k))

/-- Consistency of the two stores owned by the Vector Index: a parent
chunk reachable from an index entry carries the same `owner_id` as the
entry metadata (section 6, persisted index layout kept mutually
consistent). -/
def Consistent (idx : VectorIndex) : Prop :=
  ∀ e ∈ idx.entries, ∀ p ∈ idx.parents, p.parent_id = e.parent_id → p.owner_id = e.owner_id

instance (idx : VectorIndex) : Decidable (Consistent idx) := by
  unfold Consistent
  infer_instance

/-- Modelled from the spec: the HyDE prompt requesting a hypothetical
passage that would answer the query (section 4.4 and the implementation
guide). -/
def hydePrompt (query : String) : String :=
  "Please write a short, hypothetical passage that answers: " ++ query

/-- Modelled from the spec: `enhance(query)` of section 4.4.  The
generation provider is an explicit fallible function; `none` models
generation failure or timeout. -/
def enhance (gen : String → Option String) (query : String) : String :=
  match gen (hydePrompt query) with
  | some passage => query ++ "\n\n" ++ passage
  | none => query

/-- Modelled from the spec: scoring every `(query, candidate text)` pair
through the relevance-scoring provider (section 4.6); any provider
failure makes the whole scoring pass fail. -/
def scoreCandidates (scorer : String → String → Option Int) (query : String) :
    List RetrievalResult → Option (List (RetrievalResult × Int))
  | [] => some []
  | r :: rs =>
    match scorer query r.parent_chunk.text with
    | none => none
    | some s =>
      match scoreCandidates scorer query rs with
      | none => none
      | some ss => some ((r, s) :: ss)

/-- Ordering of scored rerank candidates: descending relevance score. -/
def scoredLE (a b : RetrievalResult × Int) : Prop := b.2 ≤ a.2

instance : DecidableRel scoredLE := fun a b => inferInstanceAs (Decidable (b.2 ≤ a.2))

instance : IsTotal (RetrievalResult × Int) scoredLE := ⟨fun a b => le_total b.2 a.2⟩

instance : IsTrans (RetrievalResult × Int) scoredLE := ⟨fun _ _ _ h1 h2 => le_trans h2 h1⟩

/-- Modelled from the spec: `rerank(query, candidates, top_k)` of
section 4.6.  On provider failure it falls back to the retriever's
original ordering truncated to `top_k`. -/
def rerank (scorer : String → String → Option Int) (query : String)
    (cands : List RetrievalResult) (top_k : Nat) : List RetrievalResult :=
  match scoreCandidates scorer query cands with
  | some scored => ((List.insertionSort scoredLE scored).map Prod.fst).take top_k
  | none => cands.take top_k

/-- Modelled from the spec: the rate-limited embedding gateway state
with its rolling daily quota counter (section 4.2). -/
structure EmbeddingGateway where
  dim : Nat
  quotaLimit : Nat
  quotaUsed : Nat
deriving DecidableEq, Repr

/-- Exhaustion of the daily quota counter (section 4.2). -/
def quotaExhausted (g : EmbeddingGateway) : Bool := g.quotaLimit ≤ g.quotaUsed

/-- Modelled from the spec: deterministic text hash used to derive the
fallback pseudo-embedding (section 4.2). -/
def textHash (t : String) : Nat :=
  t.toList.foldl (fun h c => (h * 31 + c.toNat) % 4294967296) 7

/-- Modelled from the spec: hash-derived deterministic fallback vector
of the fixed index dimension (section 4.2). -/
def fallbackVector (dim : Nat) (t : String) : List Int :=
  (List.range dim).map (fun i => Int.ofNat ((textHash t + 2654435761 * i) % 1009))

/-- Modelled from the spec: `EmbeddingProviderError`, raised only for
non-recoverable transport failures (sections 4.2 and 7). -/
inductive EmbeddingError where
  | providerError
deriving DecidableEq, Repr

/-- Result of an embedding batch: one vector per text, plus the
degraded-quality flag of section 4.2. -/
structure EmbedResult where
  vectors : List (List Int)
  degraded : Bool
deriving DecidableEq, Repr

/-- Modelled from the spec: calling the external embedding transport on
each text; `none` models a non-recoverable transport failure. -/
def callTransport (transport : String → Option (List Int)) :
    List String → Option (List (List Int))
  | [] => some []
  | t :: ts =>
    match transport t with
    | none => none
    | some v =>
      match callTransport transport ts with
      | none => none
      | some vs => some (v :: vs)

/-- Modelled from the spec: `embed(texts)` of section 4.2.  Once the
daily quota is exhausted the gateway returns deterministic fallback
vectors marked degraded instead of failing; otherwise it calls the
transport and raises `EmbeddingProviderError` only when the transport
fails. -/
def embed (g : EmbeddingGateway) (transport : String → Option (List Int))
    (texts : List String) : Except EmbeddingError EmbedResult :=
  if quotaExhausted g then
    .ok ⟨texts.map (fallbackVector g.dim), true⟩
  else
    match callTransport transport texts with
    | some vs => .ok ⟨vs, false⟩
    | none => .error .providerError

/-! Markdown stripping, embedded from `stripMarkdown` in
`src/frontend/src/components/rag/MessageBubble.jsx`.  Each JavaScript
regex replacement pass is modelled as a left-to-right scan with the
lazy-quantifier semantics of the source patterns. -/

/-- The backquote character, the delimiter of the inline-code and
code-block passes. -/
def backtickChar : Char := Char.ofNat 96

/-- Characters matched by the JavaScript regex `.` without the `s`
flag: everything except line terminators. -/
def isDot (c : Char) : Bool :=
  !(c = Char.ofNat 10 || c = Char.ofNat 13 || c = Char.ofNat 0x2028 || c = Char.ofNat 0x2029)

/-- Characters matched by the JavaScript regex class `\s`. -/
def isWsChar (c : Char) : Bool :=
  c = ' ' || c = Char.ofNat 9 || c = Char.ofNat 10 || c = Char.ofNat 11 ||
  c = Char.ofNat 12 || c = Char.ofNat 13 || c = Char.ofNat 0xa0 ||
  c = Char.ofNat 0x1680 || (0x2000 ≤ c.toNat && c.toNat ≤ 0x200a) ||
  c = Char.ofNat 0x2028 || c = Char.ofNat 0x2029 || c = Char.ofNat 0x202f ||
  c = Char.ofNat 0x205f || c = Char.ofNat 0x3000 || c = Char.ofNat 0xfeff

/-- Lazy search for the closing double delimiter `dd` after a non-empty
run of `.`-matching content characters, as in `(.+?)` followed by the
doubled delimiter.  Returns the content and the remainder after the
closing delimiter. -/
def dClose (d : Char) : List Char → Option (List Char × List Char)
  | [] => none
  | c :: cs =>
    if isDot c then
      match cs with
      | c2 :: c3 :: _ =>
        if c2 = d && c3 = d then some ([c], cs.drop 2)
        else
          match dClose d cs with
          | some (ct, r) => some (c :: ct, r)
          | none => none
      | _ => none
    else none

/-- One global-replace pass for a doubled delimiter pattern such as
`\*\*(.+?)\*\*`, keeping the captured content.  The fuel argument is
the input length; the scan consumes at least one character per step. -/
def replaceDoubleGo (d : Char) : Nat → List Char → List Char
  | 0, l => l
  | _ + 1, [] => []
  | fuel + 1, c :: cs =>
    if c = d then
      match cs with
      | c2 :: _ =>
        if c2 = d then
          match dClose d (cs.drop 1) with
          | some (ct, rest) => ct ++ replaceDoubleGo d fuel rest
          | none => c :: replaceDoubleGo d fuel cs
        else c :: replaceDoubleGo d fuel cs
      | [] => [c]
    else c :: replaceDoubleGo d fuel cs

/-- Global replace of `dd(.+?)dd` by the captured content. -/
def replaceDouble (d : Char) (l : List Char) : List Char :=
  replaceDoubleGo d l.length l

/-- Lazy search for a closing single delimiter after non-empty
`.`-matching content, as in `(.+?)` followed by the delimiter. -/
def sClose (d : Char) : List Char → Option (List Char × List Char)
  | [] => none
  | c :: cs =>
    if isDot c then
      match cs with
      | c2 :: rest =>
        if c2 = d then some ([c], rest)
        else
          match sClose d cs with
          | some (ct, r) => some (c :: ct, r)
          | none => none
      | [] => none
    else none

/-- One global-replace pass for a single-delimiter pattern such as
`\*(.+?)\*` or the inline-code pattern, keeping the captured
content. -/
def replaceSingleGo (d : Char) : Nat → List Char → List Char
  | 0, l => l
  | _ + 1, [] => []
  | fuel + 1, c :: cs =>
    if c = d then
      match sClose d cs with
      | some (ct, rest) => ct ++ replaceSingleGo d fuel rest
      | none => c :: replaceSingleGo d fuel cs
    else c :: replaceSingleGo d fuel cs

/-- Global replace of `d(.+?)d` by the captured content. -/
def replaceSingle (d : Char) (l : List Char) : List Char :=
  replaceSingleGo d l.length l

/-- Drop a run of `\s` characters, reporting whether the last dropped
character was a newline (so header stripping knows whether it is still
at a line start). -/
def stripWsRun : Bool → List Char → List Char × Bool
  | b, [] => ([], b)
  | b, c :: cs => if isWsChar c then stripWsRun (c = Char.ofNat 10) cs else (c :: cs, b)

/-- Length of the leading run of `#` characters. -/
def countHashes : List Char → Nat
  | [] => 0
  | c :: cs => if c = '#' then countHashes cs + 1 else 0

/-- Match of the header pattern `^#{1,6}\s+` at a line start: one to
six hashes immediately followed by whitespace.  Returns the remainder
and whether the position after the match is again a line start. -/
def headerMatch (l : List Char) : Option (List Char × Bool) :=
  let h := countHashes l
  if 1 ≤ h ∧ h ≤ 6 then
    match l.drop h with
    | c :: cs => if isWsChar c then some (stripWsRun (c = Char.ofNat 10) cs) else none
    | [] => none
  else none

/-- Multiline global replace of `^#{1,6}\s+` by the empty string.  The
boolean tracks whether the scan is at a line start. -/
def stripHeadersGo : Nat → Bool → List Char → List Char
  | 0, _, l => l
  | _ + 1, _, [] => []
  | fuel + 1, lineStart, c :: cs =>
    if lineStart then
      match headerMatch (c :: cs) with
      | some (rest, nl) => stripHeadersGo fuel nl rest
      | none => c :: stripHeadersGo fuel (c = Char.ofNat 10) cs
    else c :: stripHeadersGo fuel (c = Char.ofNat 10) cs

/-- The header-stripping pass. -/
def stripHeaders (l : List Char) : List Char :=
  stripHeadersGo l.length true l

/-- Lowercase ASCII letters, the class `[a-z]` of the code-block
pattern. -/
def isLowerAlpha (c : Char) : Bool := 'a' ≤ c && c ≤ 'z'

/-- Lazy search for the closing newline-plus-fence of the code-block
pattern (content may contain newlines because of the `s` flag). -/
def cbClose : List Char → Option (List Char × List Char)
  | [] => none
  | c :: cs =>
    match cs with
    | n :: t1 :: t2 :: t3 :: _ =>
      if n = Char.ofNat 10 && t1 = backtickChar && t2 = backtickChar && t3 = backtickChar then
        some ([c], cs.drop 4)
      else
        match cbClose cs with
        | some (ct, r) => some (c :: ct, r)
        | none => none
    | _ =>
      match cbClose cs with
      | some (ct, r) => some (c :: ct, r)
      | none => none

/-- The code-block pass: global replace of a fenced block
(three backquotes, an optional lowercase language tag, a newline, lazy
content, a newline and a closing fence) by its content. -/
def replaceCodeBlocksGo : Nat → List Char → List Char
  | 0, l => l
  | _ + 1, [] => []
  | fuel + 1, c :: cs =>
    if c = backtickChar then
      match cs with
      | c2 :: c3 :: rest =>
        if c2 = backtickChar && c3 = backtickChar then
          match rest.dropWhile isLowerAlpha with
          | n :: afterNl =>
            if n = Char.ofNat 10 then
              match cbClose afterNl with
              | some (ct, r) => ct ++ replaceCodeBlocksGo fuel r
              | none => c :: replaceCodeBlocksGo fuel cs
            else c :: replaceCodeBlocksGo fuel cs
          | [] => c :: replaceCodeBlocksGo fuel cs
        else c :: replaceCodeBlocksGo fuel cs
      | _ => c :: replaceCodeBlocksGo fuel cs
    else c :: replaceCodeBlocksGo fuel cs

/-- The code-block pass on a character list. -/
def replaceCodeBlocks (l : List Char) : List Char :=
  replaceCodeBlocksGo l.length l

/-- Leading and trailing whitespace removal, the final `.trim()`. -/
def trimChars (l : List Char) : List Char :=
  ((l.dropWhile isWsChar).reverse.dropWhile isWsChar).reverse

/-- The seven replacement passes of `stripMarkdown` in source order:
bold (asterisk and underscore), italic (asterisk and underscore),
headers, inline code, code blocks. -/
def stripPasses (l : List Char) : List Char :=
  replaceCodeBlocks (replaceSingle backtickChar (stripHeaders
    (replaceSingle '_' (replaceSingle '*'
      (replaceDouble '_' (replaceDouble '*' l))))))

/-- Embedded from `stripMarkdown` in
`src/frontend/src/components/rag/MessageBubble.jsx`: the seven
regex-replacement passes followed by `trim()`. -/
def stripMarkdown (text : String) : String :=
  String.mk (trimChars (stripPasses text.toList))

/-- A string is free of structural markup when the markdown-stripping
passes leave it unchanged, i.e. none of the bold, italic, header,
inline-code or code-block patterns matches anywhere in it. -/
def markupFree (s : String) : Bool := stripPasses s.toList == s.toList

/-- Modelled from the spec: `GenerationTimeout`, fatal at the Generate
stage (section 7). -/
inductive GenError where
  | timeout
deriving DecidableEq, Repr

/-- Result of answer generation: the final answer and the parent
identifiers of the chunks cited as sources (section 4.7). -/
structure GenResult where
  answer : String
  sources : List String
deriving DecidableEq, Repr

/-- Modelled from the spec: the fixed insufficient-context answer
returned without calling the provider when no context is available
(section 4.7). -/
def insufficientContextAnswer : String :=
  "I do not have enough context to answer this question."

/-- Modelled from the spec: the configured character budget of the
context window (section 4.7). -/
def contextBudget : Nat := 8000

/-- Modelled from the spec: the chunks actually included in the
context: ranked chunks are kept in rank order while they fit the
remaining character budget, so chunks are dropped from the
lowest-ranked end first (section 4.7). -/
def includedChunks (budget : Nat) : List RetrievalResult → List RetrievalResult
  | [] => []
  | r :: rs =>
    if r.parent_chunk.text.length ≤ budget then
      r :: includedChunks (budget - r.parent_chunk.text.length) rs
    else []

/-- Modelled from the spec: concatenation of the included chunk texts
in rank order (section 4.7). -/
def buildContext (rs : List RetrievalResult) : String :=
  String.intercalate "\n\n" (rs.map (fun r => r.parent_chunk.text))

/-- Modelled from the spec: the structured generation prompt combining
context and question (section 4.7 and the implementation guide). -/
def buildPrompt (query context : String) : String :=
  "Answer the question using only the provided context.\n\nContext:\n" ++ context ++
    "\n\nQuestion:\n" ++ query

/-- Modelled from the spec: `generate(query, ranked_chunks)` of section
4.7.  An empty chunk list yields the fixed insufficient-context answer
with no sources and no provider call; otherwise the provider answer has
markdown formatting stripped and the sources are the parent identifiers
of the chunks included in the context. -/
def generate (provider : String → Option String) (query : String)
    (ranked : List RetrievalResult) : Except GenError GenResult :=
  match ranked with
  | [] => .ok ⟨insufficientContextAnswer, []⟩
  | _ :: _ =>
    match provider (buildPrompt query (buildContext (includedChunks contextBudget ranked))) with
    | some raw => .ok ⟨stripMarkdown raw, (includedChunks contextBudget ranked).map pid⟩
    | none => .error .timeout

/-- Answer component of a generation outcome (empty on error). -/
def answerOf : Except GenError GenResult → String
  | .ok r => r.answer
  | .error _ => ""

/-! Client-side behaviour, embedded from
`src/frontend/src/services/ragService.js` and the `ChatInterface`
component. -/

/-- A source item of the query-endpoint response (section 6). -/
structure SourceItem where
  parent_id : String
  title : String
  excerpt : String
deriving DecidableEq, Repr

/-- The HTTP request `ragService.query` issues: the path, the URL query
parameters, and the JSON body fields. -/
structure RagRequest where
  path : String
  params : List (String × String)
  bodyQuery : String
  bodyTopK : Int
deriving DecidableEq, Repr

/-- Embedded from `ragService.query` in
`src/frontend/src/services/ragService.js`: a POST to `/rag/query` with
optional `session_id` and repeated `documents` URL parameters and a
JSON body holding `query` and `top_k`. -/
def ragServiceQueryRequest (queryText : String) (topK : Int) (sessionId : Option String)
    (selectedDocuments : List String) : RagRequest :=
  { path := "/rag/query"
  , params :=
      (match sessionId with
       | some s => [("session_id", s)]
       | none => []) ++ selectedDocuments.map (fun d => ("documents", d))
  , bodyQuery := queryText
  , bodyTopK := topK }

/-- The response payload as the client sees it: both fields may be
absent. -/
structure RagData where
  answer : Option String
  sources : Option (List SourceItem)
deriving DecidableEq, Repr

/-- The HTTP response wrapper: the `data` field may be absent. -/
structure HttpResponse where
  data : Option RagData
deriving DecidableEq, Repr

/-- Embedded from `ragService.query`: the response validation `if
(!response || !response.data) throw`, returning `response.data`
otherwise. -/
def ragServiceValidate (resp : Option HttpResponse) : Except String RagData :=
  match resp with
  | none => .error "Invalid response from server"
  | some r =>
    match r.data with
    | none => .error "Invalid response from server"
    | some d => .ok d

/-- Embedded from `ChatInterface.handleSendMessage`: the check `if
(!response || !response.answer) throw` on the payload returned by
`ragService.query`; an absent or empty (falsy) answer is rejected,
and `sources` defaults to the empty list. -/
def clientProcess (resp : Option HttpResponse) : Except String (String × List SourceItem) :=
  match ragServiceValidate resp with
  | .error e => .error e
  | .ok d =>
    match d.answer with
    | none => .error "Invalid response from server"
    | some a =>
      if a = "" then .error "Invalid response from server"
      else .ok (a, d.sources.getD [])

/-- A chat message as kept in the `ChatInterface` message list. -/
structure ChatMsg where
  role : String
  content : String
deriving DecidableEq, Repr

/-- Outcome of the awaited `ragService.query` call: the promise either
rejects (network error or missing `data`) or resolves with the
payload. -/
inductive QueryOutcome where
  | reject
  | resolved (data : RagData)
deriving DecidableEq, Repr

/-- An outcome `handleSendMessage` treats as a failure: a rejected
request, or a payload whose `answer` is absent or falsy. -/
def isFailureOutcome : QueryOutcome → Bool
  | .reject => true
  | .resolved d =>
    match d.answer with
    | none => true
    | some a => a = ""

/-- Embedded from `handleSendMessage` in the `ChatInterface` component
(`src/unnamed/part_004`): with no session or no selected documents no
request is issued and the message list is untouched; otherwise the user
message is appended optimistically, and on failure the last appended
message is removed (`prev.slice(0, -1)`), while on success the
assistant message is appended.  The boolean reports whether a request
was issued. -/
def handleSendMessage (hasSession : Bool) (selectedDocuments : List String)
    (messages : List ChatMsg) (query : String) (outcome : QueryOutcome) :
    List ChatMsg × Bool :=
  if !hasSession then (messages, false)
  else if selectedDocuments.isEmpty then (messages, false)
  else
    let withUser := messages ++ [⟨"user", query⟩]
    match outcome with
    | .reject => (withUser.dropLast, true)
    | .resolved d =>
      match d.answer with
      | none => (withUser.dropLast, true)
      | some a =>
        if a = "" then (withUser.dropLast, true)
        else (withUser ++ [⟨"assistant", a⟩], true)

/-! Concrete data used to witness the theorems: two users, each with
one indexed document mentioning the word budget. -/

/-- Parent chunk of user alice's document. -/
def parentA : ParentChunk :=
  ⟨"pA", "docA", "alice", "The budget for project Alpha is 100.", 0⟩

/-- Parent chunk of user bob's document. -/
def parentB : ParentChunk :=
  ⟨"pB", "docB", "bob", "The budget for project Beta is 200.", 0⟩

/-- Index entry for the child of alice's parent chunk. -/
def entryA : IndexEntry := ⟨"cA", [1, 0], "alice", "docA", "pA"⟩

/-- Index entry for the child of bob's parent chunk. -/
def entryB : IndexEntry := ⟨"cB", [1, 0], "bob", "docB", "pB"⟩

/-- A two-tenant index holding both users' entries and parents. -/
def demoIndex : VectorIndex := ⟨[entryA, entryB], [parentA, parentB]⟩

/-- A deterministic query embedder for the demonstration index. -/
def demoEmbed : String → List Int := fun _ => [1, 0]

/-- The retrieval result resolving alice's child to her parent. -/
def rA : RetrievalResult := ⟨parentA, 1, "cA"⟩

/-- A retrieval result used as generator input in the witnesses. -/
def mdChunk : RetrievalResult :=
  ⟨⟨"p1", "d1", "alice", "Paris is the capital of France.", 0⟩, 5, "c1"⟩

/-- A demonstration chat message. -/
def demoMsg : ChatMsg := ⟨"user", "earlier question"⟩

/-! Theorems. -/

/-- Claim C3: for every query, if the ranked chunk list passed to
`generate` is empty, the result is the fixed insufficient-context
answer with an empty sources list; the result is `.ok` (no exception)
and is the same for every provider, so the provider is never
consulted. -/
theorem generate_empty_context (provider : String → Option String) (query : String) :
    generate provider query [] = .ok ⟨insufficientContextAnswer, []⟩ := rfl

/-- Claim C4: HyDE degradation.  If the generation provider fails on
the hypothetical-passage request, `enhance` returns the original query
unchanged (and no error is raised, since `enhance` is total); if the
provider succeeds with a passage, `enhance` returns the query, a blank
line, and the passage. -/
theorem enhance_hyde (gen : String → Option String) (query : String) :
    (gen (hydePrompt query) = none → enhance gen query = query) ∧
    ∀ p, gen (hydePrompt query) = some p → enhance gen query = query ++ "\n\n" ++ p := by
  constructor
  · intro h
    unfold enhance
    rw [h]
  · intro p h
    unfold enhance
    rw [h]

/-- Witness for `enhance_hyde` at an always-failing and an
always-succeeding provider. -/
theorem enhance_hyde_witness :
    enhance (fun _ => none) "What is HyDE?" = "What is HyDE?" ∧
    enhance (fun _ => some "A hypothetical passage.") "What is HyDE?" =
      "What is HyDE?" ++ "\n\n" ++ "A hypothetical passage." :=
  ⟨(enhance_hyde (fun _ => none) "What is HyDE?").1 rfl,
   (enhance_hyde (fun _ => some "A hypothetical passage.") "What is HyDE?").2
     "A hypothetical passage." rfl⟩

/-- Claim C2: reranker fallback.  If the relevance-scoring provider
fails on every call, `rerank` returns the input candidates in their
original order truncated to `top_k`; in particular the result is
non-empty whenever the input is non-empty and `top_k ≥ 1`. -/
theorem rerank_provider_fallback (scorer : String → String → Option Int)
    (hfail : ∀ a b, scorer a b = none) (query : String)
    (cands : List RetrievalResult) (top_k : Nat) :
    rerank scorer query cands top_k = cands.take top_k ∧
    (cands ≠ [] → 1 ≤ top_k → rerank scorer query cands top_k ≠ []) := by
  have hmain : rerank scorer query cands top_k = cands.take top_k := by
    cases cands with
    | nil => simp [rerank, scoreCandidates]
    | cons r rs => simp [rerank, scoreCandidates, hfail]
  refine ⟨hmain, ?_⟩
  intro hne hk
  rw [hmain]
  cases cands with
  | nil => exact absurd rfl hne
  | cons r rs =>
    cases top_k with
    | zero => exact absurd hk (by simp)
    | succ n => simp [List.take_succ_cons]

/-- Witness for `rerank_provider_fallback` on a one-element candidate
list with an always-failing scorer. -/
theorem rerank_provider_fallback_witness :
    rerank (fun _ _ => none) "budget" [rA] 1 = [rA].take 1 ∧
    rerank (fun _ _ => none) "budget" [rA] 1 ≠ [] := by
  have h := rerank_provider_fallback (fun _ _ => none) (fun _ _ => rfl) "budget" [rA] 1
  exact ⟨h.1, h.2 (by simp) (by simp)⟩

/-- A failing transport call on some text is the only way the batched
transport call fails. -/
theorem callTransport_none (transport : String → Option (List Int)) :
    ∀ texts : List String, callTransport transport texts = none →
      ∃ t ∈ texts, transport t = none := by
  intro texts
  induction texts with
  | nil => simp [callTransport]
  | cons t ts ih =>
    intro h
    unfold callTransport at h
    cases htr : transport t with
    | none => exact ⟨t, List.mem_cons_self t ts, htr⟩
    | some v =>
      rw [htr] at h
      cases hct : callTransport transport ts with
      | none =>
        rcases ih hct with ⟨t2, ht2, ht2n⟩
        exact ⟨t2, List.mem_cons_of_mem t ht2, ht2n⟩
      | some vs => rw [hct] at h; simp at h

/-- Every fallback vector has the configured index dimension. -/
theorem fallbackVector_length (dim : Nat) (t : String) :
    (fallbackVector dim t).length = dim := by
  simp [fallbackVector]

/-- Claim C6: embedding-gateway quota behaviour.  With the daily quota
exhausted, `embed` does not raise: it returns one deterministic
fallback vector of the fixed index dimension per text (independent of
the transport, so identical inputs always yield identical vectors) and
marks the result degraded; `EmbeddingProviderError` is raised only when
the quota is not exhausted and the transport fails on some text. -/
theorem embed_quota_behavior (g : EmbeddingGateway)
    (transport : String → Option (List Int)) (texts : List String) :
    (quotaExhausted g = true →
      embed g transport texts = .ok ⟨texts.map (fallbackVector g.dim), true⟩ ∧
      (∀ transport2, embed g transport texts = embed g transport2 texts) ∧
      ∀ v ∈ texts.map (fallbackVector g.dim), v.length = g.dim) ∧
    ∀ e, embed g transport texts = .error e →
      quotaExhausted g = false ∧ ∃ t ∈ texts, transport t = none := by
  constructor
  · intro hq
    refine ⟨by simp [embed, hq], fun transport2 => by simp [embed, hq], ?_⟩
    intro v hv
    rcases List.mem_map.mp hv with ⟨t, _, ht⟩
    rw [← ht]
    exact fallbackVector_length g.dim t
  · intro e he
    cases hq : quotaExhausted g with
    | true => rw [embed, hq] at he; simp at he
    | false =>
      refine ⟨rfl, ?_⟩
      rw [embed, hq] at he
      simp only [Bool.false_eq_true, if_false] at he
      cases hct : callTransport transport texts with
      | none => exact callTransport_none transport texts hct
      | some vs => rw [hct] at he; simp at he

/-- Witness for `embed_quota_behavior`: an exhausted gateway returns
the degraded fallback batch, and a non-exhausted gateway with a failing
transport has a failing text. -/
theorem embed_quota_behavior_witness :
    embed ⟨2, 5, 5⟩ (fun _ => none) ["budget report"] =
      .ok ⟨[fallbackVector 2 "budget report"], true⟩ ∧
    (quotaExhausted ⟨2, 5, 0⟩ = false ∧
      ∃ t ∈ ["budget report"], (fun _ => (none : Option (List Int))) t = none) := by
  constructor
  · exact ((embed_quota_behavior ⟨2, 5, 5⟩ (fun _ => none) ["budget report"]).1 rfl).1
  · exact (embed_quota_behavior ⟨2, 5, 0⟩ (fun _ => none) ["budget report"]).2
      .providerError rfl

/-- Claim C9: query endpoint contract.  Every request the client builds
carries the query string, the integer `top_k` and the selected document
identifiers as the repeated `documents` parameter; a successfully
processed response always yields an answer string and a sources list
(defaulting to empty), and a response lacking `data` or lacking an
answer is treated as an error. -/
theorem query_endpoint_contract (queryText : String) (topK : Int)
    (sessionId : Option String) (docs : List String) (resp : Option HttpResponse) :
    ((ragServiceQueryRequest queryText topK sessionId docs).bodyQuery = queryText ∧
     (ragServiceQueryRequest queryText topK sessionId docs).bodyTopK = topK ∧
     ((ragServiceQueryRequest queryText topK sessionId docs).params.filter
        (fun p => p.1 == "documents")).map Prod.snd = docs) ∧
    (∀ a s, clientProcess resp = .ok (a, s) →
      ∃ r d, resp = some r ∧ r.data = some d ∧ d.answer = some a ∧ s = d.sources.getD []) ∧
    ((resp = none ∨ (∃ r, resp = some r ∧ r.data = none) ∨
        ∃ r d, resp = some r ∧ r.data = some d ∧ d.answer = none) →
      ∃ e, clientProcess resp = .error e) := by
  have hdocs : ∀ ds : List String,
      ((ds.map (fun d => ("documents", d))).filter
        (fun p => p.1 == "documents")).map Prod.snd = ds := by
    intro ds
    induction ds with
    | nil => rfl
    | cons d ds ih => simp [List.filter_cons, ih]
  refine ⟨⟨rfl, rfl, ?_⟩, ?_, ?_⟩
  · cases sessionId with
    | none => simpa [ragServiceQueryRequest] using hdocs docs
    | some s =>
      simp only [ragServiceQueryRequest, List.filter_append]
      rw [show (([("session_id", s)] : List (String × String)).filter
        (fun p => p.1 == "documents")) = [] from by simp]
      simpa using hdocs docs
  · intro a s h
    cases resp with
    | none => simp [clientProcess, ragServiceValidate] at h
    | some r =>
      cases hd : r.data with
      | none => simp [clientProcess, ragServiceValidate, hd] at h
      | some d =>
        cases ha : d.answer with
        | none => simp [clientProcess, ragServiceValidate, hd, ha] at h
        | some a0 =>
          by_cases he : a0 = ""
          · simp [clientProcess, ragServiceValidate, hd, ha, he] at h
          · simp only [clientProcess, ragServiceValidate, hd, ha, if_neg he] at h
            injection h with h
            injection h with h1 h2
            exact ⟨r, d, rfl, hd, by rw [ha, h1], h2.symm⟩
  · intro h
    rcases h with rfl | ⟨r, rfl, hd⟩ | ⟨r, d, rfl, hd, ha⟩
    · exact ⟨"Invalid response from server", rfl⟩
    · exact ⟨"Invalid response from server", by simp [clientProcess, ragServiceValidate, hd]⟩
    · exact ⟨"Invalid response from server", by simp [clientProcess, ragServiceValidate, hd, ha]⟩

/-- Witness for `query_endpoint_contract`: a concrete request with two
selected documents, a concrete successful response, and a concrete
response lacking the answer. -/
theorem query_endpoint_contract_witness :
    (∃ r d, (some ⟨some ⟨some "An answer.", none⟩⟩ : Option HttpResponse) = some r ∧
      r.data = some d ∧ d.answer = some "An answer." ∧
      ([] : List SourceItem) = d.sources.getD []) ∧
    ∃ e, clientProcess (some ⟨some ⟨none, none⟩⟩) = .error e := by
  constructor
  · exact (query_endpoint_contract "budget" 5 none ["docA", "docB"]
      (some ⟨some ⟨some "An answer.", none⟩⟩)).2.1 "An answer." [] rfl
  · exact (query_endpoint_contract "budget" 5 none ["docA", "docB"]
      (some ⟨some ⟨none, none⟩⟩)).2.2 (Or.inr (Or.inr ⟨_, _, rfl, rfl, rfl⟩))

/-- Claim C10: chat message-list atomicity on error.  With no selected
documents, `handleSendMessage` issues no request and leaves the message
list untouched; with a session and selected documents, the user message
is appended optimistically and, when the request rejects or the
response lacks an answer, exactly that appended message is removed,
restoring the message list to its value before the send. -/
theorem chat_atomicity (hasSession : Bool) (docs : List String)
    (msgs : List ChatMsg) (query : String) (outcome : QueryOutcome) :
    (docs = [] → handleSendMessage hasSession docs msgs query outcome = (msgs, false)) ∧
    (hasSession = true → docs ≠ [] → isFailureOutcome outcome = true →
      handleSendMessage hasSession docs msgs query outcome = (msgs, true)) := by
  constructor
  · rintro rfl
    cases hasSession <;> simp [handleSendMessage]
  · rintro rfl hd hf
    cases docs with
    | nil => exact absurd rfl hd
    | cons d ds =>
      cases outcome with
      | reject =>
        simp [handleSendMessage, List.dropLast_concat]
      | resolved data =>
        cases ha : data.answer with
        | none => simp [handleSendMessage, ha, List.dropLast_concat]
        | some a =>
          simp only [isFailureOutcome, ha, decide_eq_true_eq] at hf
          simp [handleSendMessage, ha, hf, List.dropLast_concat]

/-- Witness for `chat_atomicity`: a rejected request removes the
optimistic user message, and an empty document selection leaves the
list untouched without issuing a request. -/
theorem chat_atomicity_witness :
    handleSendMessage true ["docA"] [demoMsg] "budget" .reject = ([demoMsg], true) ∧
    handleSendMessage true [] [demoMsg] "budget" .reject = ([demoMsg], false) := by
  constructor
  · exact (chat_atomicity true ["docA"] [demoMsg] "budget" .reject).2 rfl (by simp) rfl
  · exact (chat_atomicity true [] [demoMsg] "budget" .reject).1 rfl

/-- Claim C8 counterexample: the generated answer is not always free of
structural markup.  When the provider answer is `******q**`, the bold
pass rewrites it to `**q**` and the italic pass to `*q*`, a string the
stripping passes themselves still recognise as containing italic
markup, so the returned answer is not markup-free. -/
theorem generate_markup_counterexample :
    answerOf (generate (fun _ => some "******q**") "Q" [mdChunk]) = "*q*" ∧
    markupFree (answerOf (generate (fun _ => some "******q**") "Q" [mdChunk])) = false := by
  constructor
  · rfl
  · rfl

/-- Claim C8, amended: for every query and non-empty ranked chunk list,
when the provider produces an answer, `generate` returns exactly that
answer with the markdown-stripping pass applied once (well-formed bold,
italic, header, inline-code and code-block markup is removed, but
residual or newly exposed markers may remain), and the sources list is
exactly the parent identifiers of the chunks included in the assembled
context. -/
theorem generate_stripped_answer_sources (provider : String → Option String)
    (query : String) (ranked : List RetrievalResult) (raw : String)
    (hne : ranked ≠ [])
    (hp : provider (buildPrompt query (buildContext (includedChunks contextBudget ranked))) =
      some raw) :
    generate provider query ranked =
      .ok ⟨stripMarkdown raw, (includedChunks contextBudget ranked).map pid⟩ := by
  cases ranked with
  | nil => exact absurd rfl hne
  | cons r rs =>
    unfold generate
    rw [hp]

/-- Witness for `generate_stripped_answer_sources`: a provider answer
with well-formed markup is stripped and the included chunk's parent is
cited. -/
theorem generate_stripped_answer_sources_witness :
    generate (fun _ => some "**Paris** is the capital.") "Q" [mdChunk] =
      .ok ⟨"Paris is the capital.", ["p1"]⟩ := by
  have h := generate_stripped_answer_sources (fun _ => some "**Paris** is the capital.")
    "Q" [mdChunk] "**Paris** is the capital." (by simp) rfl
  exact h

/-- Upserting the same entry batch twice produces exactly the index
state of upserting it once: `child_id` is the replace key, so the
second batch removes and re-adds its own entries. -/
theorem upsert_upsert (idx : VectorIndex) (es : List IndexEntry) :
    upsert (upsert idx es) es = upsert idx es := by
  unfold upsert
  simp only [VectorIndex.mk.injEq, and_true]
  rw [List.filter_append]
  have h1 : es.filter (fun e => !(es.any fun n => n.child_id == e.child_id)) = [] := by
    rw [List.filter_eq_nil_iff]
    intro e he
    have ha : (es.any fun n => n.child_id == e.child_id) = true :=
      List.any_eq_true.mpr ⟨e, he, by simp⟩
    simp [ha]
  rw [h1, List.append_nil, List.filter_filter]
  simp only [Bool.and_self]

/-- Claim C7: upsert idempotence.  Upserting a document's entry batch
twice in succession leaves the Vector Index in a state where `search`
and `retrieve` return exactly the same results as after a single
upsert, for every query, filter and `top_k`. -/
theorem upsert_idempotent_results (idx : VectorIndex) (es : List IndexEntry)
    (embedQ : String → List Int) (q : String) (qv : List Int) (owner : String)
    (docFilter : Option (List String)) (top_k : Nat) :
    search (upsert (upsert idx es) es) qv owner docFilter top_k =
      search (upsert idx es) qv owner docFilter top_k ∧
    retrieve (upsert (upsert idx es) es) embedQ q owner docFilter top_k =
      retrieve (upsert idx es) embedQ q owner docFilter top_k := by
  rw [upsert_upsert]
  exact ⟨rfl, rfl⟩

/-- `pickBest` returns `none` only on the empty list. -/
theorem pickBest_eq_none : ∀ {l : List RetrievalResult}, pickBest l = none → l = []
  | [], _ => rfl
  | a :: as, h => by
    simp only [pickBest] at h
    cases hpb : pickBest as <;> rw [hpb] at h <;> simp at h

/-- `pickBest` returns an element of its input list. -/
theorem pickBest_mem : ∀ (l : List RetrievalResult) (r : RetrievalResult),
    pickBest l = some r → r ∈ l
  | [], r => by simp [pickBest]
  | a :: as, r => by
    simp only [pickBest]
    cases hpb : pickBest as with
    | none =>
      intro h
      injection h with h
      exact h ▸ List.mem_cons_self a as
    | some b =>
      intro h
      injection h with h
      by_cases hc : a.score < b.score
      · rw [if_pos hc] at h
        exact h ▸ List.mem_cons_of_mem a (pickBest_mem as b hpb)
      · rw [if_neg hc] at h
        exact h ▸ List.mem_cons_self a as

/-- `pickBest` returns an element of maximal score. -/
theorem pickBest_max : ∀ (l : List RetrievalResult) (r : RetrievalResult),
    pickBest l = some r → ∀ x ∈ l, x.score ≤ r.score
  | [], r => by simp [pickBest]
  | a :: as, r => by
    simp only [pickBest]
    cases hpb : pickBest as with
    | none =>
      intro h x hx
      injection h with h
      rw [pickBest_eq_none hpb] at hx
      rcases List.mem_singleton.mp hx with rfl
      exact h ▸ le_refl _
    | some b =>
      intro h x hx
      injection h with h
      have hmax := pickBest_max as b hpb
      by_cases hc : a.score < b.score
      · rw [if_pos hc] at h
        rcases List.mem_cons.mp hx with rfl | hx2
        · exact h ▸ le_of_lt hc
        · exact h ▸ hmax x hx2
      · rw [if_neg hc] at h
        rcases List.mem_cons.mp hx with rfl | hx2
        · exact h ▸ le_refl _
        · exact h ▸ le_trans (hmax x hx2) (le_of_not_lt hc)

/-- Members of `firstOccurGo fuel l` are members of `l`, for any
fuel. -/
theorem mem_of_mem_firstOccurGo : ∀ (fuel : Nat) (l : List String) (x : String),
    x ∈ firstOccurGo fuel l → x ∈ l := by
  intro fuel
  induction fuel with
  | zero =>
    intro l x h
    simp [firstOccurGo] at h
  | succ fuel ih =>
    intro l x h
    cases l with
    | nil => simp [firstOccurGo] at h
    | cons y ys =>
      rw [firstOccurGo] at h
      rcases List.mem_cons.mp h with rfl | h2
      · exact List.mem_cons_self _ _
      · exact List.mem_cons_of_mem y (List.mem_filter.mp (ih _ x h2)).1

/-- `firstOccurGo` produces a duplicate-free list, for any fuel. -/
theorem firstOccurGo_nodup : ∀ (fuel : Nat) (l : List String),
    (firstOccurGo fuel l).Nodup := by
  intro fuel
  induction fuel with
  | zero =>
    intro l
    simp [firstOccurGo]
  | succ fuel ih =>
    intro l
    cases l with
    | nil => simp [firstOccurGo]
    | cons y ys =>
      rw [firstOccurGo]
      refine List.nodup_cons.mpr ⟨?_, ih _⟩
      intro hmem
      have h2 := (List.mem_filter.mp (mem_of_mem_firstOccurGo _ _ _ hmem)).2
      simp at h2

/-- `firstOccur` produces a duplicate-free list. -/
theorem firstOccur_nodup (l : List String) : (firstOccur l).Nodup :=
  firstOccurGo_nodup l.length l

/-- Collecting one result per key through a key-respecting partial
choice function yields pairwise-distinct parent identifiers. -/
theorem filterMap_pairwise_pid (ks : List String)
    (f : String → Option RetrievalResult)
    (hf : ∀ k r, f k = some r → pid r = k) (hk : ks.Nodup) :
    (ks.filterMap f).Pairwise (fun a b => pid a ≠ pid b) := by
  induction ks with
  | nil => simp
  | cons k ks ih =>
    rw [List.filterMap_cons]
    rcases List.nodup_cons.mp hk with ⟨hknot, hkn⟩
    cases hfk : f k with
    | none => exact ih hkn
    | some r =>
      refine List.pairwise_cons.mpr ⟨?_, ih hkn⟩
      intro b hb
      rcases List.mem_filterMap.mp hb with ⟨k2, hk2, hfk2⟩
      rw [hf k r hfk, hf k2 b hfk2]
      intro he
      exact hknot (he ▸ hk2)

/-- Every deduplicated result is one of the original candidates. -/
theorem dedup_sound (l : List RetrievalResult) (r : RetrievalResult)
    (h : r ∈ dedupByParent l) : r ∈ l := by
  rcases List.mem_filterMap.mp h with ⟨p, _, hpick⟩
  exact (List.mem_filter.mp (pickBest_mem _ _ hpick)).1

/-- Every deduplicated result carries the maximal score among the
candidates sharing its parent. -/
theorem dedup_max (l : List RetrievalResult) (r : RetrievalResult)
    (h : r ∈ dedupByParent l) :
    ∀ x ∈ l, pid x = pid r → x.score ≤ r.score := by
  rcases List.mem_filterMap.mp h with ⟨p, _, hpick⟩
  have hrp : pid r = p := by
    simpa using (List.mem_filter.mp (pickBest_mem _ _ hpick)).2
  intro x hx hpx
  exact pickBest_max _ _ hpick x (List.mem_filter.mpr ⟨hx, by simp [hpx, hrp]⟩)

/-- Deduplicated results have pairwise-distinct parent identifiers. -/
theorem dedup_pairwise (l : List RetrievalResult) :
    (dedupByParent l).Pairwise (fun a b => pid a ≠ pid b) := by
  apply filterMap_pairwise_pid
  · intro k r h
    simpa using (List.mem_filter.mp (pickBest_mem _ _ h)).2
  · exact firstOccur_nodup _

/-- Claim C5: every retrieval result list is sorted by descending score
with ties broken by ascending parent `order_index`, contains at most
one entry per parent identifier, and each entry is one of the resolved
search candidates carrying the maximum score among the candidates of
its parent. -/
theorem retrieve_dedup_sorted (idx : VectorIndex) (embedQ : String → List Int)
    (q owner : String) (docFilter : Option (List String)) (k : Nat) :
    List.Sorted rrLE (retrieve idx embedQ q owner docFilter k) ∧
    (retrieve idx embedQ q owner docFilter k).Pairwise (fun a b => pid a ≠ pid b) ∧
    ∀ r ∈ retrieve idx embedQ q owner docFilter k,
      r ∈ candidates idx (embedQ q) owner docFilter k ∧
      ∀ x ∈ candidates idx (embedQ q) owner docFilter k,
        pid x = pid r → x.score ≤ r.score := by
  refine ⟨List.sorted_insertionSort rrLE _, ?_, ?_⟩
  · exact ((List.perm_insertionSort rrLE _).pairwise_iff
      (fun h => Ne.symm h)).mpr (dedup_pairwise _)
  · intro r hr
    have hr2 : r ∈ dedupByParent (candidates idx (embedQ q) owner docFilter k) :=
      (List.perm_insertionSort rrLE _).subset hr
    exact ⟨dedup_sound _ _ hr2, fun x hx hpx => dedup_max _ _ hr2 x hx hpx⟩

/-- Witness for `retrieve_dedup_sorted`: the retrieval result for alice
on the demonstration index is a resolved candidate of maximal score for
its parent. -/
theorem retrieve_dedup_sorted_witness :
    rA ∈ candidates demoIndex (demoEmbed "budget") "alice" none 5 ∧
    ∀ x ∈ candidates demoIndex (demoEmbed "budget") "alice" none 5,
      pid x = pid rA → x.score ≤ rA.score :=
  (retrieve_dedup_sorted demoIndex demoEmbed "budget" "alice" none 5).2.2 rA (by decide)

/-- Every search hit comes from an index entry that passed the hard
owner/document filter and carries that entry's child identifier. -/
theorem search_hit_filtered (idx : VectorIndex) (qv : List Int) (owner : String)
    (docFilter : Option (List String)) (k : Nat) (hit : String × Int)
    (h : hit ∈ search idx qv owner docFilter k) :
    ∃ e ∈ idx.entries, matchesFilter owner docFilter e = true ∧ hit.1 = e.child_id := by
  unfold search at h
  have h3 := (List.perm_insertionSort hitLE _).subset (List.take_subset _ _ h)
  rcases List.mem_map.mp h3 with ⟨e, he, heq⟩
  rcases List.mem_filter.mp he with ⟨hee, hef⟩
  exact ⟨e, hee, hef, by rw [← heq]⟩

/-- Every resolved candidate's parent chunk belongs to the caller. -/
theorem candidates_owner (idx : VectorIndex)
    (hN : (idx.entries.map IndexEntry.child_id).Nodup) (hC : Consistent idx)
    (qv : List Int) (owner : String) (docFilter : Option (List String)) (k : Nat)
    (r : RetrievalResult) (hr : r ∈ candidates idx qv owner docFilter k) :
    r.parent_chunk.owner_id = owner := by
  rcases List.mem_filterMap.mp hr with ⟨hit, hhit, hres⟩
  cases hle : lookupEntry idx hit.1 with
  | none => simp [resolveHit, hle] at hres
  | some e =>
    cases hgp : get_parent idx e.parent_id with
    | none => simp [resolveHit, hle, hgp] at hres
    | some p =>
      simp only [resolveHit, hle, hgp, Option.some.injEq] at hres
      have he_mem : e ∈ idx.entries := List.mem_of_find?_eq_some hle
      have he_cid : e.child_id = hit.1 := by
        have := List.find?_some hle
        simpa using this
      rcases search_hit_filtered idx qv owner docFilter k hit hhit with ⟨e2, he2, hf2, hcid2⟩
      have hee : e = e2 :=
        List.inj_on_of_nodup_map hN he_mem he2 (by rw [he_cid, hcid2])
      have howner : e.owner_id = owner := by
        have hf2e : matchesFilter owner docFilter e = true := hee ▸ hf2
        simp only [matchesFilter, Bool.and_eq_true, beq_iff_eq] at hf2e
        exact hf2e.1
      have hp_mem : p ∈ idx.parents := List.mem_of_find?_eq_some hgp
      have hp_pid : p.parent_id = e.parent_id := by
        have := List.find?_some hgp
        simpa using this
      rw [← hres]
      exact (hC e he_mem p hp_mem hp_pid).trans howner

/-- Claim C1: owner isolation.  On any index whose entries have
distinct child identifiers and whose parent store is consistent with
the entry metadata, `retrieve` never returns a parent chunk belonging
to a different owner than the caller, for every query, `top_k` and
(adversarial) document filter. -/
theorem retrieve_owner_isolation (idx : VectorIndex)
    (hN : (idx.entries.map IndexEntry.child_id).Nodup) (hC : Consistent idx)
    (embedQ : String → List Int) (q owner : String)
    (docFilter : Option (List String)) (k : Nat) (r : RetrievalResult)
    (hr : r ∈ retrieve idx embedQ q owner docFilter k) :
    r.parent_chunk.owner_id = owner := by
  have h1 : r ∈ dedupByParent (candidates idx (embedQ q) owner docFilter k) :=
    (List.perm_insertionSort rrLE _).subset hr
  exact candidates_owner idx hN hC (embedQ q) owner docFilter k r (dedup_sound _ _ h1)

/-- Witness for `retrieve_owner_isolation`: on the two-tenant
demonstration index, with an adversarial document filter naming bob's
document too, alice's query for budget only returns her own parent. -/
theorem retrieve_owner_isolation_witness :
    rA.parent_chunk.owner_id = "alice" :=
  retrieve_owner_isolation demoIndex (by decide) (by decide) demoEmbed "budget" "alice"
    (some ["docA", "docB"]) 5 rA (by decide)

end ModularRAG
